import Mathlib

/-!
Verification of the SmartCart "Basket Intelligence Core" against its source:
src/preprocessing.py, src/mba_engine.py and src/recommender.py.

Conventions of the shallow embedding:
* pandas / numpy floating-point arithmetic is idealized as exact arithmetic
  (rationals for the basket / rule pipeline, reals for the recommender, whose
  cosine similarities involve square roots);
* a DataFrame of transactions is a list of records; a matrix indexed by
  pandas labels is a function out of Fin with separate label arrays, exactly
  like the (user_ids, item_ids, values) triple the engine stores;
* np.argsort followed by [::-1] is modelled as a stable ascending insertion
  sort of the index list followed by reversal;
* the -np.inf masking of already purchased products is modelled by keys in
  WithBot Real, with bot for masked entries;
* the sklearn NMF model (an iterative numerical procedure of a third-party
  library) is kept abstract: the engine stores an optional transform from a
  user's quantity vector to an optional reconstructed score vector, where
  absence models fit failure and an inner none models a transform exception.
-/

set_option maxHeartbeats 1000000

namespace SmartCart

/-! ## Part 1: basket construction (src/preprocessing.py) -/

/-- A transaction record: one row of the input DataFrame with the columns
used by prepare_basket_data (order_id, product, quantity); products are
coded as naturals. -/
structure Txn where
  order : ℕ
  product : ℕ
  qty : ℚ
deriving DecidableEq

/-- Summed quantity of a product inside an order: the
groupby(['order_id','product'])['quantity'].sum() aggregation of
prepare_basket_data, with absent combinations summing to 0 (fillna(0)). -/
def sumQty (df : List Txn) (o p : ℕ) : ℚ :=
  ((df.filter (fun t => t.order = o ∧ t.product = p)).map Txn.qty).sum

/-- Row labels of the basket matrix: the distinct order ids of the input. -/
def dfOrders (df : List Txn) : List ℕ :=
  (df.map Txn.order).dedup

/-- Column labels of the basket matrix: the distinct products of the input;
groupby materializes a column for every product occurring in some row. -/
def dfProducts (df : List Txn) : List ℕ :=
  (df.map Txn.product).dedup

/-- A cell of the binary basket matrix built by prepare_basket_data:
(basket > 0).astype(int). -/
def basketCell (df : List Txn) (o p : ℕ) : ℕ :=
  if 0 < sumQty df o p then 1 else 0

/-! ## Part 2: frequent itemsets and association rules (src/mba_engine.py)

MBAEngine.fit delegates to mlxtend's apriori and association_rules, which
are third-party library code not contained in this repository.  Those two
calls are modelled from the spec (sections 4.1 and 4.2): support of an
itemset is the fraction of orders containing it, apriori returns every
non-empty itemset whose support meets min_support, and rules are every
proper non-empty split of a frequent itemset of size at least 2 kept when
confidence = support(itemset)/support(antecedent) reaches min_confidence,
with lift = confidence / support(consequent). -/

/-- A basket: the set of products present in one order, that is one row of
the binary basket matrix. -/
abbrev Basket := Finset ℕ

/-- Modelled from the spec: support of an itemset, the fraction of all
orders containing every product of the itemset (mlxtend apriori is not
repository code). -/
def itemsetSupport (baskets : List Basket) (s : Finset ℕ) : ℚ :=
  ((baskets.countP (fun b => s ⊆ b) : ℕ) : ℚ) / (baskets.length : ℚ)

/-- Product universe of a basket list: every product present in some order. -/
def productUniverse (baskets : List Basket) : Finset ℕ :=
  baskets.foldr (· ∪ ·) ∅

/-- Modelled from the spec: the frequent itemsets returned by apriori —
every non-empty itemset over the product universe whose support meets
min_support (the level-wise search of apriori is extensionally exactly
this set; output ordering is unspecified by the spec, so a finite set). -/
def frequentItemsets (baskets : List Basket) (minSupp : ℚ) : Finset (Finset ℕ) :=
  (productUniverse baskets).powerset.filter
    (fun s => s ≠ ∅ ∧ minSupp ≤ itemsetSupport baskets s)

/-- An association rule row as stored in the rules DataFrame: antecedents,
consequents and the three metrics used by the query layer. -/
structure Rule where
  antecedents : Finset ℕ
  consequents : Finset ℕ
  supp : ℚ
  confidence : ℚ
  lift : ℚ
deriving DecidableEq

/-- The rule built for one (itemset, antecedent) split: confidence is
support(itemset)/support(antecedent), lift divides the confidence by the
consequent's support. -/
def mkRule (baskets : List Basket) (s a : Finset ℕ) : Rule :=
  let conf := itemsetSupport baskets s / itemsetSupport baskets a
  ⟨a, s \ a, itemsetSupport baskets s, conf,
    conf / itemsetSupport baskets (s \ a)⟩

/-- Modelled from the spec: association_rules — for every frequent itemset
of size at least 2, every proper non-empty subset as antecedent with the
remainder as consequent, kept iff confidence reaches min_confidence. -/
def rulesFrom (baskets : List Basket) (itemsets : Finset (Finset ℕ))
    (minConf : ℚ) : Finset Rule :=
  (itemsets.filter (fun s => 2 ≤ s.card)).biUnion (fun s =>
    ((s.powerset.filter (fun a => a ≠ ∅ ∧ a ≠ s)).image
      (fun a => mkRule baskets s a)).filter
      (fun r => minConf ≤ r.confidence))

/-- MBAEngine.fit: generate the frequent itemsets, then the association
rules (an empty itemset table yields an empty rule table). -/
def mbaFit (baskets : List Basket) (minSupp minConf : ℚ) :
    Finset (Finset ℕ) × Finset Rule :=
  let itemsets := frequentItemsets baskets minSupp
  (itemsets, rulesFrom baskets itemsets minConf)

/-! ## Part 3: the rule query layer (src/mba_engine.py)

The engine's rule state is Option (List Rule): none models self.rules is
None (never fitted), some [] models an empty rules DataFrame. -/

/-- Sort key selection of get_top_rules: an unrecognized metric name falls
back to lift. -/
def ruleMetric (metric : String) : Rule → ℚ :=
  if metric = "confidence" then Rule.confidence
  else if metric = "support" then Rule.supp
  else Rule.lift

/-- MBAEngine.get_top_rules: empty result on an absent or empty rule set,
otherwise the n largest (or smallest) rules by the chosen metric. -/
def getTopRules (rules? : Option (List Rule)) (n : ℕ) (metric : String)
    (ascending : Bool) : List Rule :=
  match rules? with
  | none => []
  | some rules =>
    if rules.length = 0 then []
    else if ascending then
      (List.insertionSort (fun a b => ruleMetric metric a ≤ ruleMetric metric b) rules).take n
    else
      (List.insertionSort (fun a b => ruleMetric metric b ≤ ruleMetric metric a) rules).take n

/-- A per-product recommendation row returned by
get_product_recommendations. -/
structure ProdRec where
  product : ℕ
  confidence : ℚ
  lift : ℚ
  supp : ℚ
deriving DecidableEq

/-- Inner loop of get_product_recommendations: walk the consequents of one
rule, emitting each member once (not the query product, not seen before)
until n recommendations are collected. -/
def emitConsequents (product : ℕ) (n : ℕ) (r : Rule)
    (st : Finset ℕ × List ProdRec) : Finset ℕ × List ProdRec :=
  (r.consequents.sort (· ≤ ·)).foldl
    (fun st c =>
      if n ≤ st.2.length then st
      else if c ≠ product ∧ c ∉ st.1 then
        (insert c st.1, st.2 ++ [⟨c, r.confidence, r.lift, r.supp⟩])
      else st) st

/-- MBAEngine.get_product_recommendations: filter rules whose antecedents
contain the product, sort by lift descending, then collect up to n distinct
consequent products. -/
def getProductRecommendations (rules? : Option (List Rule)) (product : ℕ)
    (n : ℕ) : List ProdRec :=
  match rules? with
  | none => []
  | some rules =>
    if rules.length = 0 then []
    else
      let productRules := rules.filter (fun r => product ∈ r.antecedents)
      if productRules.length = 0 then []
      else
        let sorted := List.insertionSort (fun a b => b.lift ≤ a.lift) productRules
        (sorted.foldl (fun st r => emitConsequents product n r st) (∅, [])).2

/-- A frequently-bought-together pair row. -/
structure PairRec where
  productA : ℕ
  productB : ℕ
  confidence : ℚ
  lift : ℚ
  supp : ℚ
deriving DecidableEq

/-- The single element of a singleton finset, read off as list(s)[0] does
(smallest element, total for any finset). -/
def firstElem (s : Finset ℕ) : ℕ :=
  (s.sort (· ≤ ·)).headI

/-- MBAEngine.get_frequently_bought_together: rules with singleton
antecedents and consequents, sorted by lift descending, top n. -/
def getFrequentlyBoughtTogether (rules? : Option (List Rule)) (n : ℕ) :
    List PairRec :=
  match rules? with
  | none => []
  | some rules =>
    if rules.length = 0 then []
    else
      let pairs := (rules.filter
          (fun r => r.antecedents.card = 1 ∧ r.consequents.card = 1)).map
        (fun r => PairRec.mk (firstElem r.antecedents) (firstElem r.consequents)
          r.confidence r.lift r.supp)
      (List.insertionSort (fun a b => b.lift ≤ a.lift) pairs).take n

/-- The summary dictionary returned by get_rules_summary: the min/max
confidence entries are absent (none) exactly when the rule set is empty or
was never fitted. -/
structure RulesSummary where
  totalRules : ℕ
  avgConfidence : ℚ
  avgLift : ℚ
  maxLift : ℚ
  minConfidence : Option ℚ
  maxConfidence : Option ℚ
deriving DecidableEq

/-- Maximum of a rational over a nonempty list given as head and tail. -/
def listMax (x : ℚ) (xs : List ℚ) : ℚ :=
  xs.foldl max x

/-- Minimum of a rational over a nonempty list given as head and tail. -/
def listMin (x : ℚ) (xs : List ℚ) : ℚ :=
  xs.foldl min x

/-- MBAEngine.get_rules_summary: the all-zero summary without min/max
confidence on an absent or empty rule set, otherwise count, means, max lift
and min/max confidence of the rules. -/
def getRulesSummary (rules? : Option (List Rule)) : RulesSummary :=
  match rules? with
  | none => ⟨0, 0, 0, 0, none, none⟩
  | some [] => ⟨0, 0, 0, 0, none, none⟩
  | some (r :: rs) =>
    let rules := r :: rs
    ⟨rules.length,
      (rules.map Rule.confidence).sum / (rules.length : ℚ),
      (rules.map Rule.lift).sum / (rules.length : ℚ),
      listMax r.lift (rs.map Rule.lift),
      some (listMin r.confidence (rs.map Rule.confidence)),
      some (listMax r.confidence (rs.map Rule.confidence))⟩

/-! ## Part 4: the recommender engine (src/recommender.py)

Quantities and scores are real numbers; cosine similarity needs square
roots.  The definitions in this section are noncomputable for that reason
only; concrete instances are evaluated in proofs by simp and norm_num. -/

noncomputable section

/-- Dot product of two real vectors indexed by Fin k. -/
def dotp {k : ℕ} (a b : Fin k → ℝ) : ℝ :=
  ∑ j, a j * b j

/-- Cosine similarity as sklearn's cosine_similarity computes it for a pair
of rows: the dot product divided by the product of the norms, with a pair
involving a zero-magnitude vector left at 0 (sklearn's normalize keeps zero
rows zero). -/
def cosineSim {k : ℕ} (a b : Fin k → ℝ) : ℝ :=
  if dotp a a = 0 ∨ dotp b b = 0 then 0
  else dotp a b / (Real.sqrt (dotp a a) * Real.sqrt (dotp b b))

/-- Indices of a key vector sorted by descending key value: the model of
np.argsort(key)[::-1] and of pandas sort_values(ascending=False) — a stable
ascending sort of the index list, then reversed. -/
def argsortDesc {k : ℕ} {K : Type} [LinearOrder K] (key : Fin k → K) :
    List (Fin k) :=
  (List.insertionSort (fun i j => key i ≤ key j) (List.finRange k)).reverse

/-- Why a recommendation was produced: the three reasoning tags of the
recommendation dictionaries (popularity is the cold-start tag). -/
inductive Reasoning where
  | collaborative
  | contentBased
  | popularity
deriving DecidableEq

/-- One recommendation dictionary: product, score and reasoning tag. -/
structure RecOut where
  product : ℕ
  score : ℝ
  reasoning : Reasoning

/-- A similar-user dictionary returned by get_similar_users. -/
structure SimUser where
  customerId : ℤ
  similarity : ℝ

/-- A similar-product dictionary returned by get_similar_products. -/
structure SimProd where
  product : ℕ
  similarity : ℝ

/-- The fitted state of RecommenderEngine: the stored user-item matrix with
its index arrays, the two similarity matrices, and the abstracted NMF
model: none when fit failed, otherwise a transform from a user's quantity
vector to an optional reconstructed score vector (none models a transform
exception caught by the bare except). -/
structure Engine (m k : ℕ) where
  userIds : Fin m → ℤ
  itemIds : Fin k → ℕ
  M : Fin m → Fin k → ℝ
  userSim : Fin m → Fin m → ℝ
  itemSim : Fin k → Fin k → ℝ
  mf : Option ((Fin k → ℝ) → Option (Fin k → ℝ))

/-- Position of a customer id in the fitted user index:
np.where(user_ids == customer_id)[0][0], none when the id is absent. -/
def findUser {m k : ℕ} (e : Engine m k) (cid : ℤ) : Option (Fin m) :=
  (List.finRange m).find? (fun i => e.userIds i = cid)

/-- Position of a product in the fitted item index. -/
def findItem {m k : ℕ} (e : Engine m k) (p : ℕ) : Option (Fin k) :=
  (List.finRange k).find? (fun j => e.itemIds j = p)

/-- The user-based collaborative score vector
np.dot(user_sim_scores, user_item_matrix): for each product the sum over
all customers of similarity times that customer's quantity. -/
def weightedItems {m k : ℕ} (e : Engine m k) (uidx : Fin m) : Fin k → ℝ :=
  fun j => ∑ u, e.userSim uidx u * e.M u j

/-- The combined score vector of get_user_recommendations: with a present
model and a successful projection, 0.6 times the similarity score plus 0.4
times the factor score; on an absent model or a failed projection the
similarity score alone. -/
def finalScores {m k : ℕ} (e : Engine m k) (uidx : Fin m) : Fin k → ℝ :=
  match e.mf with
  | none => weightedItems e uidx
  | some transf =>
    match transf (e.M uidx) with
    | none => weightedItems e uidx
    | some f => fun j => 0.6 * weightedItems e uidx j + 0.4 * f j

/-- The masked ranking key of the collaborative tier: products already
purchased (quantity strictly positive) get -inf, modelled as bot. -/
def maskedKey {m k : ℕ} (e : Engine m k) (uidx : Fin m) :
    Fin k → WithBot ℝ :=
  fun j => if 0 < e.M uidx j then ⊥ else (finalScores e uidx j : WithBot ℝ)

/-- The collaborative tier of get_user_recommendations: top n indices of
the masked combined scores, kept only with strictly positive score, tagged
collaborative. -/
def collabRecs {m k : ℕ} (e : Engine m k) (uidx : Fin m) (n : ℕ) :
    List RecOut :=
  (((argsortDesc (maskedKey e uidx)).take n).filter
      (fun j => 0 < maskedKey e uidx j)).map
    (fun j => ⟨e.itemIds j, finalScores e uidx j, Reasoning.collaborative⟩)

/-- The purchased products of a user: indices with strictly positive
quantity (np.where(user_vector > 0)). -/
def purchasedSet {m k : ℕ} (e : Engine m k) (uidx : Fin m) : Finset (Fin k) :=
  Finset.univ.filter (fun p => 0 < e.M uidx p)

/-- The content-based score vector: for each product, accumulated item
similarity to every purchased product weighted by the purchased
quantity. -/
def contentScores {m k : ℕ} (e : Engine m k) (uidx : Fin m) : Fin k → ℝ :=
  fun j => ∑ p ∈ purchasedSet e uidx, e.itemSim p j * e.M uidx p

/-- The masked ranking key of the content-based tier: purchased products
get -inf, modelled as bot. -/
def contentKey {m k : ℕ} (e : Engine m k) (uidx : Fin m) :
    Fin k → WithBot ℝ :=
  fun j => if 0 < e.M uidx j then ⊥ else (contentScores e uidx j : WithBot ℝ)

/-- RecommenderEngine._get_content_based_recommendations: empty for an
unknown customer or an empty purchase history, otherwise the top n masked
content scores kept only when strictly positive, tagged content-based. -/
def contentBasedRecs {m k : ℕ} (e : Engine m k) (cid : ℤ) (n : ℕ) :
    List RecOut :=
  match findUser e cid with
  | none => []
  | some uidx =>
    if purchasedSet e uidx = ∅ then []
    else
      (((argsortDesc (contentKey e uidx)).take n).filter
          (fun j => 0 < contentKey e uidx j)).map
        (fun j => ⟨e.itemIds j, contentScores e uidx j, Reasoning.contentBased⟩)

/-- Total quantity of a product summed across all customers:
user_item_matrix.sum(axis=0). -/
def colSum {m k : ℕ} (e : Engine m k) (j : Fin k) : ℝ :=
  ∑ u, e.M u j

/-- RecommenderEngine._get_cold_start_recommendations: the n most popular
products by total quantity across all customers, tagged popularity (no
positivity filter and no masking on this path). -/
def coldStartRecs {m k : ℕ} (e : Engine m k) (n : ℕ) : List RecOut :=
  ((argsortDesc (colSum e)).take n).map
    (fun j => ⟨e.itemIds j, colSum e j, Reasoning.popularity⟩)

/-- RecommenderEngine.get_user_recommendations: cold start for an unknown
customer; otherwise the collaborative tier, filled with content-based
recommendations when it yields fewer than n, truncated to n. -/
def getUserRecommendations {m k : ℕ} (e : Engine m k) (cid : ℤ) (n : ℕ) :
    List RecOut :=
  match findUser e cid with
  | none => coldStartRecs e n
  | some uidx =>
    let recs := collabRecs e uidx n
    (if recs.length < n then recs ++ contentBasedRecs e cid (n - recs.length)
     else recs).take n

/-- RecommenderEngine.get_similar_users: positions 1 through n of the
descending argsort of the customer's similarity row
(np.argsort(scores)[::-1][1:n+1]), empty for an unknown id. -/
def getSimilarUsers {m k : ℕ} (e : Engine m k) (cid : ℤ) (n : ℕ) :
    List SimUser :=
  match findUser e cid with
  | none => []
  | some uidx =>
    (((argsortDesc (e.userSim uidx)).drop 1).take n).map
      (fun j => ⟨e.userIds j, e.userSim uidx j⟩)

/-- RecommenderEngine.get_similar_products: positions 1 through n of the
descending argsort of the product's similarity row, empty for an unknown
product. -/
def getSimilarProducts {m k : ℕ} (e : Engine m k) (p : ℕ) (n : ℕ) :
    List SimProd :=
  match findItem e p with
  | none => []
  | some pidx =>
    (((argsortDesc (e.itemSim pidx)).drop 1).take n).map
      (fun j => ⟨e.itemIds j, e.itemSim pidx j⟩)

/-- Global maximum entry of the matrix as matrix.max() computes it, at
least 0 here because the fold starts from 0 (quantity matrices are
non-negative, so this agrees with numpy on every fitted input). -/
def matMax {m k : ℕ} (M : Fin m → Fin k → ℝ) : ℝ :=
  ((List.finRange m).flatMap (fun u => (List.finRange k).map (fun j => M u j))).foldr max 0

/-- The normalization denominator of fit: matrix.max() + 1e-8. -/
def normConst {m k : ℕ} (M : Fin m → Fin k → ℝ) : ℝ :=
  matMax M + 1e-8

/-- The user-user similarity matrix computed by fit: cosine similarity of
the rows of the matrix normalized by the global maximum. -/
def fitUserSim {m k : ℕ} (M : Fin m → Fin k → ℝ) (a b : Fin m) : ℝ :=
  cosineSim (fun j => M a j / normConst M) (fun j => M b j / normConst M)

/-- The item-item similarity matrix computed by fit: cosine similarity of
the columns of the normalized matrix. -/
def fitItemSim {m k : ℕ} (M : Fin m → Fin k → ℝ) (p q : Fin k) : ℝ :=
  cosineSim (fun u => M u p / normConst M) (fun u => M u q / normConst M)

/-- RecommenderEngine.fit: store the matrix and its index arrays and
compute the two cosine similarity matrices; the NMF outcome (iterative
numerical library code) is the abstract mf parameter, none when the
factorization attempt failed. -/
def fitEngine {m k : ℕ} (userIds : Fin m → ℤ) (itemIds : Fin k → ℕ)
    (M : Fin m → Fin k → ℝ)
    (mf : Option ((Fin k → ℝ) → Option (Fin k → ℝ))) : Engine m k :=
  ⟨userIds, itemIds, M, fitUserSim M, fitItemSim M, mf⟩

/-! ## Concrete instances used to exercise the theorems -/

/-- Example quantity matrix with two customers and two products: customer 0
bought 3 of product 0; customer 1 bought 4 of product 0 and 3 of product 1.
All row and column norms are integers, so the fitted cosine similarities
are rational. -/
def exM : Fin 2 → Fin 2 → ℝ :=
  ![![3, 0], ![4, 3]]

/-- A fitted engine over exM with customer ids 10, 20 and product ids
100, 200, whose factorization attempt failed (model absent). -/
def exEngine : Engine 2 2 :=
  fitEngine ![10, 20] ![100, 200] exM none

/-- A constant reconstructed factor score vector. -/
def exF : Fin 2 → ℝ :=
  fun _ => 1

/-- A factor transform that always succeeds with exF. -/
def exTransf : (Fin 2 → ℝ) → Option (Fin 2 → ℝ) :=
  fun _ => some exF

/-- The engine of exM fitted with a present factor model. -/
def exEngineMf : Engine 2 2 :=
  fitEngine ![10, 20] ![100, 200] exM (some exTransf)

/-- An all-zero one-by-one quantity matrix (a customer whose only
transactions have quantity 0). -/
def zeroM : Fin 1 → Fin 1 → ℝ :=
  fun _ _ => 0

/-- A quantity matrix with two identical customer rows. -/
def cexM : Fin 2 → Fin 1 → ℝ :=
  fun _ _ => 1

/-- A fitted engine with two identical customers (ids 7 and 8) and one
product (id 100): both user-similarity scores of customer 7 are 1. -/
def cexEngine : Engine 2 1 :=
  fitEngine ![7, 8] (fun _ => 100) cexM none

/-- A small engine with distinct similarity scores, directly specifying
the similarity matrices. -/
def w8Engine : Engine 2 2 :=
  ⟨![10, 20], ![100, 200], fun _ _ => 0,
    ![![1, 1/2], ![1/2, 1]], ![![1, 1/2], ![1/2, 1]], none⟩

/-- A one-customer, one-product engine (customer id 5, product id 100). -/
def w1Engine : Engine 1 1 :=
  ⟨fun _ => 5, fun _ => 100, fun _ _ => 2, fun _ _ => 1, fun _ _ => 1, none⟩

end

/-! ## Lemmas about cosine similarity and the fitted similarity matrices -/

lemma dotp_comm {k : ℕ} (a b : Fin k → ℝ) : dotp a b = dotp b a := by
  unfold dotp
  exact Finset.sum_congr rfl fun j _ => mul_comm _ _

lemma dotp_self_nonneg {k : ℕ} (a : Fin k → ℝ) : 0 ≤ dotp a a :=
  Finset.sum_nonneg fun j _ => mul_self_nonneg (a j)

lemma cosineSim_comm {k : ℕ} (a b : Fin k → ℝ) :
    cosineSim a b = cosineSim b a := by
  unfold cosineSim
  by_cases h : dotp a a = 0 ∨ dotp b b = 0
  · rw [if_pos h, if_pos (Or.symm h)]
  · rw [if_neg h, if_neg (fun h' => h (Or.symm h')), dotp_comm a b, mul_comm]

lemma cosineSim_self {k : ℕ} (a : Fin k → ℝ) (h : dotp a a ≠ 0) :
    cosineSim a a = 1 := by
  unfold cosineSim
  rw [if_neg (by simp [h]), Real.mul_self_sqrt (dotp_self_nonneg a),
    div_self h]

lemma cosineSim_zero_of_left {k : ℕ} (a b : Fin k → ℝ) (h : dotp a a = 0) :
    cosineSim a b = 0 := by
  unfold cosineSim
  rw [if_pos (Or.inl h)]

lemma cosineSim_zero_of_right {k : ℕ} (a b : Fin k → ℝ) (h : dotp b b = 0) :
    cosineSim a b = 0 := by
  unfold cosineSim
  rw [if_pos (Or.inr h)]

lemma dotp_div {k : ℕ} (a b : Fin k → ℝ) (c : ℝ) :
    dotp (fun j => a j / c) (fun j => b j / c) = dotp a b / c ^ 2 := by
  unfold dotp
  rw [Finset.sum_div]
  exact Finset.sum_congr rfl fun j _ => by
    rw [div_mul_div_comm, sq]

lemma cosineSim_div_const {k : ℕ} (a b : Fin k → ℝ) {c : ℝ} (hc : 0 < c) :
    cosineSim (fun j => a j / c) (fun j => b j / c) = cosineSim a b := by
  have hc2 : (c : ℝ) ^ 2 ≠ 0 := pow_ne_zero 2 hc.ne'
  have hdiv : ∀ x : ℝ, x / c ^ 2 = 0 ↔ x = 0 := fun x => by
    rw [div_eq_zero_iff]
    simp [hc2]
  unfold cosineSim
  rw [dotp_div a a c, dotp_div b b c, dotp_div a b c]
  have hcond : (dotp a a / c ^ 2 = 0 ∨ dotp b b / c ^ 2 = 0) ↔
      (dotp a a = 0 ∨ dotp b b = 0) := by rw [hdiv, hdiv]
  by_cases h : dotp a a = 0 ∨ dotp b b = 0
  · rw [if_pos (hcond.mpr h), if_pos h]
  · rw [if_neg (fun h' => h (hcond.mp h')), if_neg h]
    push_neg at h
    have ha : 0 < dotp a a := lt_of_le_of_ne (dotp_self_nonneg a) (Ne.symm h.1)
    have hb : 0 < dotp b b := lt_of_le_of_ne (dotp_self_nonneg b) (Ne.symm h.2)
    rw [Real.sqrt_div ha.le, Real.sqrt_div hb.le, Real.sqrt_sq hc.le]
    have hsa : 0 < Real.sqrt (dotp a a) := Real.sqrt_pos.mpr ha
    have hsb : 0 < Real.sqrt (dotp b b) := Real.sqrt_pos.mpr hb
    field_simp
    ring

lemma foldr_max_nonneg : ∀ l : List ℝ, 0 ≤ l.foldr max 0
  | [] => le_refl 0
  | x :: xs => le_trans (foldr_max_nonneg xs) (le_max_right x _)

lemma normConst_pos {m k : ℕ} (M : Fin m → Fin k → ℝ) : 0 < normConst M := by
  unfold normConst matMax
  have h := foldr_max_nonneg
    ((List.finRange m).flatMap (fun u => (List.finRange k).map (fun j => M u j)))
  positivity

lemma fitUserSim_eq {m k : ℕ} (M : Fin m → Fin k → ℝ) (a b : Fin m) :
    fitUserSim M a b = cosineSim (M a) (M b) :=
  cosineSim_div_const (M a) (M b) (normConst_pos M)

lemma fitItemSim_eq {m k : ℕ} (M : Fin m → Fin k → ℝ) (p q : Fin k) :
    fitItemSim M p q = cosineSim (fun u => M u p) (fun u => M u q) :=
  cosineSim_div_const _ _ (normConst_pos M)

/-! ## Lemmas about the descending argsort -/

lemma argsortDesc_perm {k : ℕ} {K : Type} [LinearOrder K] (key : Fin k → K) :
    (argsortDesc key).Perm (List.finRange k) :=
  (List.reverse_perm _).trans
    (List.perm_insertionSort (fun i j => key i ≤ key j) (List.finRange k))

lemma argsortDesc_mem {k : ℕ} {K : Type} [LinearOrder K] (key : Fin k → K)
    (i : Fin k) : i ∈ argsortDesc key :=
  ((argsortDesc_perm key).mem_iff).mpr (List.mem_finRange i)

lemma argsortDesc_nodup {k : ℕ} {K : Type} [LinearOrder K] (key : Fin k → K) :
    (argsortDesc key).Nodup :=
  ((argsortDesc_perm key).symm).nodup (List.nodup_finRange k)

lemma argsortDesc_length {k : ℕ} {K : Type} [LinearOrder K] (key : Fin k → K) :
    (argsortDesc key).length = k :=
  (argsortDesc_perm key).length_eq.trans (List.length_finRange k)

lemma argsortDesc_sorted {k : ℕ} {K : Type} [LinearOrder K] (key : Fin k → K) :
    List.Sorted (fun i j => key j ≤ key i) (argsortDesc key) := by
  haveI : IsTotal (Fin k) (fun i j => key i ≤ key j) := ⟨fun a b => le_total _ _⟩
  haveI : IsTrans (Fin k) (fun i j => key i ≤ key j) :=
    ⟨fun a b c hab hbc => le_trans hab hbc⟩
  have h := List.sorted_insertionSort (fun i j => key i ≤ key j) (List.finRange k)
  unfold argsortDesc
  exact (List.pairwise_reverse).mpr h

lemma argsortDesc_cons_of_strict_max {k : ℕ} {K : Type} [LinearOrder K]
    (key : Fin k → K) (self : Fin k)
    (hmax : ∀ j, j ≠ self → key j < key self) :
    ∃ rest, argsortDesc key = self :: rest := by
  rcases hl : argsortDesc key with _ | ⟨h, t⟩
  · exact absurd (argsortDesc_mem key self) (by rw [hl]; exact List.not_mem_nil _)
  · refine ⟨t, ?_⟩
    by_cases hh : h = self
    · rw [hh]
    · exfalso
      have hs : self ∈ h :: t := hl ▸ argsortDesc_mem key self
      have hst : self ∈ t := by
        rcases List.mem_cons.mp hs with h1 | h1
        · exact absurd h1.symm hh
        · exact h1
      have hsorted := argsortDesc_sorted key
      rw [hl] at hsorted
      have hle : key self ≤ key h := List.rel_of_sorted_cons hsorted self hst
      exact absurd hle (not_le.mpr (hmax h hh))

/-- Shape of positions 1..n of a descending argsort when the key has a
strict maximum: the result excludes the maximizing index, is sorted
descending, has min n (k-1) entries without duplicates, and dominates every
index it leaves out. -/
lemma nearestNeighbors_spec {k : ℕ} {K : Type} [LinearOrder K]
    (key : Fin k → K) (self : Fin k) (n : ℕ)
    (hmax : ∀ j, j ≠ self → key j < key self) :
    self ∉ ((argsortDesc key).drop 1).take n ∧
    List.Sorted (fun i j => key j ≤ key i) (((argsortDesc key).drop 1).take n) ∧
    (((argsortDesc key).drop 1).take n).length = min n (k - 1) ∧
    (((argsortDesc key).drop 1).take n).Nodup ∧
    (∀ j, j ∉ ((argsortDesc key).drop 1).take n → j ≠ self →
      ∀ i ∈ ((argsortDesc key).drop 1).take n, key j ≤ key i) := by
  obtain ⟨rest, hcons⟩ := argsortDesc_cons_of_strict_max key self hmax
  have hnodup := argsortDesc_nodup key
  rw [hcons] at hnodup
  obtain ⟨hselfrest, hrestnodup⟩ := List.nodup_cons.mp hnodup
  have hsorted := argsortDesc_sorted key
  rw [hcons] at hsorted
  have hrestsorted : List.Sorted (fun i j => key j ≤ key i) rest :=
    hsorted.of_cons
  have hlen : rest.length = k - 1 := by
    have := argsortDesc_length key
    rw [hcons] at this
    simp only [List.length_cons] at this
    omega
  rw [hcons]
  simp only [List.drop_one, List.tail_cons]
  refine ⟨fun hmem => hselfrest (List.mem_of_mem_take hmem),
    List.Pairwise.sublist (List.take_sublist n rest) hrestsorted,
    by rw [List.length_take, hlen],
    hrestnodup.sublist (List.take_sublist n rest), ?_⟩
  intro j hj hjself i hi
  have hjrest : j ∈ rest := by
    have hja : j ∈ self :: rest := hcons ▸ argsortDesc_mem key j
    rcases List.mem_cons.mp hja with h1 | h1
    · exact absurd h1 hjself
    · exact h1
  have hjdrop : j ∈ rest.drop n := by
    rcases (List.mem_append.mp ((List.take_append_drop n rest) ▸ hjrest)) with h1 | h1
    · exact absurd h1 hj
    · exact h1
  exact hrestsorted.rel_of_mem_take_of_mem_drop hi hjdrop

lemma argsortDesc_two {K : Type} [LinearOrder K] (key : Fin 2 → K)
    (h : key 0 ≤ key 1) : argsortDesc key = [1, 0] := by
  unfold argsortDesc
  have h2 : List.finRange 2 = [0, 1] := rfl
  rw [h2]
  show (List.orderedInsert _ 0 (List.orderedInsert _ 1 (List.insertionSort _ []))).reverse = _
  rw [List.insertionSort]
  rw [List.orderedInsert, List.orderedInsert]
  rw [if_pos h]
  rfl

/-- An index whose masked key is strictly positive cannot be a purchased
index, because masking sends purchased indices to bot. -/
lemma not_purchased_of_key_pos {m k : ℕ} (e : Engine m k) (uidx : Fin m)
    (key : Fin k → WithBot ℝ) (hkey : ∀ j, 0 < e.M uidx j → key j = ⊥)
    (j : Fin k) (h : 0 < key j) : ¬ 0 < e.M uidx j :=
  fun hp => not_lt_bot (hkey j hp ▸ h)

lemma maskedKey_bot_of_purchased {m k : ℕ} (e : Engine m k) (uidx : Fin m)
    (j : Fin k) (h : 0 < e.M uidx j) : maskedKey e uidx j = ⊥ := by
  unfold maskedKey
  rw [if_pos h]

lemma contentKey_bot_of_purchased {m k : ℕ} (e : Engine m k) (uidx : Fin m)
    (j : Fin k) (h : 0 < e.M uidx j) : contentKey e uidx j = ⊥ := by
  unfold contentKey
  rw [if_pos h]

lemma order_mem_of_sumQty_pos {df : List Txn} {o p : ℕ}
    (h : 0 < sumQty df o p) : o ∈ dfOrders df := by
  unfold sumQty at h
  rcases hf : df.filter (fun t => t.order = o ∧ t.product = p) with _ | ⟨t, ts⟩
  · rw [hf] at h
    simp at h
  · have ht : t ∈ df.filter (fun t => t.order = o ∧ t.product = p) := by
      rw [hf]
      exact List.mem_cons_self t ts
    obtain ⟨htdf, htp⟩ := List.mem_filter.mp ht
    have hto : t.order = o := (decide_eq_true_eq.mp htp).1
    unfold dfOrders
    exact List.mem_dedup.mpr (hto ▸ List.mem_map_of_mem Txn.order htdf)

/-! ## Claim theorems -/

/-- C5 (amended): a basket cell built by prepare_basket_data is 1 exactly
when the product's summed quantity in that order is strictly positive, and
every materialized column whose product has strictly positive summed
quantity in some order contains at least one 1.  (The unamended claim that
every materialized column contains a 1 fails: a product appearing only
with quantity 0 is still materialized as a column, see the
counterexample.) -/
theorem claim_C5_basket_cells (df : List Txn) :
    (∀ o p, basketCell df o p = 1 ↔ 0 < sumQty df o p) ∧
    (∀ p, p ∈ dfProducts df → (∃ o, 0 < sumQty df o p) →
      ∃ o ∈ dfOrders df, basketCell df o p = 1) := by
  have hcell : ∀ o p, basketCell df o p = 1 ↔ 0 < sumQty df o p := by
    intro o p
    unfold basketCell
    by_cases h : 0 < sumQty df o p
    · rw [if_pos h]
      exact ⟨fun _ => h, fun _ => rfl⟩
    · rw [if_neg h]
      exact ⟨fun h0 => absurd h0 (by norm_num), fun h0 => absurd h0 h⟩
  refine ⟨hcell, fun p _ ⟨o, ho⟩ =>
    ⟨o, order_mem_of_sumQty_pos ho, (hcell o p).mpr ho⟩⟩

/-- C5 counterexample: the transaction list with the single row
(order 1, product 5, quantity 0) materializes product 5 as a column of the
basket matrix, yet every cell of that column is 0 — the claimed invariant
that every materialized column contains at least one 1 fails. -/
theorem claim_C5_counterexample :
    dfProducts [⟨1, 5, 0⟩] = [5] ∧ dfOrders [⟨1, 5, 0⟩] = [1] ∧
    ∀ o ∈ dfOrders [⟨1, 5, 0⟩], basketCell [⟨1, 5, 0⟩] o 5 = 0 := by
  refine ⟨rfl, rfl, ?_⟩
  intro o ho
  have ho1 : o = 1 := by
    have : dfOrders [(⟨1, 5, 0⟩ : Txn)] = [1] := rfl
    rw [this] at ho
    exact List.mem_singleton.mp ho
  subst ho1
  have hz : sumQty [⟨1, 5, 0⟩] 1 5 = 0 := by
    norm_num [sumQty]
  unfold basketCell
  rw [hz]
  norm_num

/-- C5 witness: on the single transaction (order 1, product 5, quantity 2)
the cell characterization applies and the materialized column of product 5
contains a 1. -/
theorem claim_C5_witness :
    (5 ∈ dfProducts [⟨1, 5, 2⟩]) ∧ (0 < sumQty [⟨1, 5, 2⟩] 1 5) ∧
    ∃ o ∈ dfOrders [⟨1, 5, 2⟩], basketCell [⟨1, 5, 2⟩] o 5 = 1 :=
  ⟨by decide, by norm_num [sumQty],
    (claim_C5_basket_cells [⟨1, 5, 2⟩]).2 5 (by decide)
      ⟨1, by norm_num [sumQty]⟩⟩

/-- C9: fitting the mining engine on an empty basket matrix yields an
empty frequent-itemset table and an empty rule table (and, the model being
a total function, no exception). -/
theorem claim_C9_empty_fit (minSupp minConf : ℚ) :
    mbaFit [] minSupp minConf = (∅, ∅) := by
  have huniv : productUniverse [] = ∅ := rfl
  have hitem : frequentItemsets [] minSupp = ∅ := by
    unfold frequentItemsets
    rw [huniv, Finset.powerset_empty, Finset.filter_singleton]
    simp
  unfold mbaFit
  rw [hitem]
  simp [rulesFrom]

/-- C6: every rule generated by fit satisfies
confidence = support(antecedent with consequent)/support(antecedent),
lift = confidence/support(consequent), and confidence at least
min_confidence. -/
theorem claim_C6_rule_metrics (baskets : List Basket) (minSupp minConf : ℚ)
    (r : Rule) (hr : r ∈ (mbaFit baskets minSupp minConf).2) :
    r.confidence =
      itemsetSupport baskets (r.antecedents ∪ r.consequents) /
        itemsetSupport baskets r.antecedents ∧
    r.lift = r.confidence / itemsetSupport baskets r.consequents ∧
    minConf ≤ r.confidence := by
  unfold mbaFit rulesFrom at hr
  obtain ⟨s, _, hrs⟩ := Finset.mem_biUnion.mp hr
  obtain ⟨hrim, hconf⟩ := Finset.mem_filter.mp hrs
  obtain ⟨a, ha, hmk⟩ := Finset.mem_image.mp hrim
  obtain ⟨hasub, hane, _⟩ :
      a ∈ s.powerset ∧ a ≠ ∅ ∧ a ≠ s := by
    have := Finset.mem_filter.mp ha
    exact ⟨this.1, this.2⟩
  have hasubset : a ⊆ s := Finset.mem_powerset.mp hasub
  subst hmk
  refine ⟨?_, rfl, hconf⟩
  show itemsetSupport baskets s / itemsetSupport baskets a =
      itemsetSupport baskets (a ∪ s \ a) / itemsetSupport baskets a
  rw [Finset.union_sdiff_of_subset hasubset]

lemma exSupport_eq_one {s : Finset ℕ} (h : s ⊆ {0, 1}) :
    itemsetSupport [({0, 1} : Basket)] s = 1 := by
  unfold itemsetSupport
  rw [List.countP_cons, List.countP_nil]
  simp only [decide_eq_true_eq, h, if_true]
  norm_num

lemma exRule_mem :
    (⟨{0}, {1}, 1, 1, 1⟩ : Rule) ∈ (mbaFit [({0, 1} : Basket)] 1 1).2 := by
  have h01 : itemsetSupport [({0, 1} : Basket)] {0, 1} = 1 :=
    exSupport_eq_one (by decide)
  have h0 : itemsetSupport [({0, 1} : Basket)] {0} = 1 :=
    exSupport_eq_one (by decide)
  have h1 : itemsetSupport [({0, 1} : Basket)] {1} = 1 :=
    exSupport_eq_one (by decide)
  have hsd : ({0, 1} : Finset ℕ) \ {0} = {1} := by decide
  have hmk : mkRule [({0, 1} : Basket)] {0, 1} {0} = ⟨{0}, {1}, 1, 1, 1⟩ := by
    unfold mkRule
    rw [hsd, h01, h0, h1]
    simp [Rule.mk.injEq]
  unfold mbaFit rulesFrom
  rw [Finset.mem_biUnion]
  refine ⟨{0, 1}, ?_, ?_⟩
  · rw [Finset.mem_filter]
    refine ⟨?_, by decide⟩
    unfold frequentItemsets productUniverse
    rw [Finset.mem_filter]
    refine ⟨by decide, by decide, ?_⟩
    rw [h01]
  · rw [Finset.mem_filter]
    constructor
    · rw [Finset.mem_image]
      exact ⟨{0}, by decide, hmk⟩
    · norm_num

/-- C6 witness: on a single basket containing products 0 and 1 with both
thresholds equal to 1, the rule with antecedent 0 and consequent 1 is
generated by fit and the metric equations hold for it. -/
theorem claim_C6_witness :
    ((⟨{0}, {1}, 1, 1, 1⟩ : Rule) ∈ (mbaFit [({0, 1} : Basket)] 1 1).2) ∧
    ((⟨{0}, {1}, 1, 1, 1⟩ : Rule).confidence =
      itemsetSupport [({0, 1} : Basket)]
          ((⟨{0}, {1}, 1, 1, 1⟩ : Rule).antecedents ∪
            (⟨{0}, {1}, 1, 1, 1⟩ : Rule).consequents) /
        itemsetSupport [({0, 1} : Basket)]
          (⟨{0}, {1}, 1, 1, 1⟩ : Rule).antecedents ∧
    (⟨{0}, {1}, 1, 1, 1⟩ : Rule).lift =
      (⟨{0}, {1}, 1, 1, 1⟩ : Rule).confidence /
        itemsetSupport [({0, 1} : Basket)]
          (⟨{0}, {1}, 1, 1, 1⟩ : Rule).consequents ∧
    (1 : ℚ) ≤ (⟨{0}, {1}, 1, 1, 1⟩ : Rule).confidence) :=
  ⟨exRule_mem, claim_C6_rule_metrics [({0, 1} : Basket)] 1 1 _ exRule_mem⟩

/-- C7: on an absent (never fitted) or empty rule set, get_top_rules,
get_product_recommendations and get_frequently_bought_together each return
an empty result, and get_rules_summary returns the summary with count,
mean confidence, mean lift and max lift all zero and the min/max
confidence fields absent; all operations are total. -/
theorem claim_C7_empty_rule_queries (n : ℕ) (metric : String)
    (ascending : Bool) (p : ℕ) :
    getTopRules none n metric ascending = [] ∧
    getTopRules (some []) n metric ascending = [] ∧
    getProductRecommendations none p n = [] ∧
    getProductRecommendations (some []) p n = [] ∧
    getFrequentlyBoughtTogether none n = [] ∧
    getFrequentlyBoughtTogether (some []) n = [] ∧
    getRulesSummary none = ⟨0, 0, 0, 0, none, none⟩ ∧
    getRulesSummary (some []) = ⟨0, 0, 0, 0, none, none⟩ :=
  ⟨rfl, rfl, rfl, rfl, rfl, rfl, rfl, rfl⟩

/-- C4 (amended): the user-user and item-item similarity matrices computed
by fit are symmetric; a diagonal entry is 1 when the corresponding row
(resp. column) vector has nonzero magnitude, and any pair involving a
zero-magnitude vector — including such a diagonal entry — has similarity 0.
(The unamended claim that every diagonal entry is 1 fails on a matrix with
an all-zero row, see the counterexample.) -/
theorem claim_C4_similarity_symmetry (m k : ℕ) (M : Fin m → Fin k → ℝ) :
    (∀ a b, fitUserSim M a b = fitUserSim M b a) ∧
    (∀ p q, fitItemSim M p q = fitItemSim M q p) ∧
    (∀ a, dotp (M a) (M a) ≠ 0 → fitUserSim M a a = 1) ∧
    (∀ p, dotp (fun u => M u p) (fun u => M u p) ≠ 0 → fitItemSim M p p = 1) ∧
    (∀ a b, dotp (M a) (M a) = 0 ∨ dotp (M b) (M b) = 0 →
      fitUserSim M a b = 0) ∧
    (∀ p q, dotp (fun u => M u p) (fun u => M u p) = 0 ∨
      dotp (fun u => M u q) (fun u => M u q) = 0 → fitItemSim M p q = 0) := by
  refine ⟨?_, ?_, ?_, ?_, ?_, ?_⟩
  · intro a b
    rw [fitUserSim_eq, fitUserSim_eq, cosineSim_comm]
  · intro p q
    rw [fitItemSim_eq, fitItemSim_eq, cosineSim_comm]
  · intro a h
    rw [fitUserSim_eq]
    exact cosineSim_self _ h
  · intro p h
    rw [fitItemSim_eq]
    exact cosineSim_self _ h
  · intro a b h
    rw [fitUserSim_eq]
    rcases h with h | h
    · exact cosineSim_zero_of_left _ _ h
    · exact cosineSim_zero_of_right _ _ h
  · intro p q h
    rw [fitItemSim_eq]
    rcases h with h | h
    · exact cosineSim_zero_of_left _ _ h
    · exact cosineSim_zero_of_right _ _ h

/-- C4 counterexample: fitting the all-zero one-by-one quantity matrix
gives a user-similarity diagonal entry equal to 0, not 1 — the claim that
every diagonal entry of a fitted similarity matrix equals 1 fails once a
vector of zero magnitude is involved. -/
theorem claim_C4_counterexample :
    fitUserSim zeroM 0 0 = 0 ∧ fitUserSim zeroM 0 0 ≠ 1 := by
  have h : fitUserSim zeroM 0 0 = 0 := by
    rw [fitUserSim_eq]
    apply cosineSim_zero_of_left
    simp [dotp, zeroM]
  refine ⟨h, ?_⟩
  rw [h]
  norm_num

/-- C4 witness: on the one-by-one matrix with entry 2, the row has nonzero
magnitude and the fitted user-similarity diagonal entry equals 1. -/
theorem claim_C4_witness :
    (dotp (fun _ : Fin 1 => (2 : ℝ)) (fun _ => 2) ≠ 0) ∧
    fitUserSim (fun (_ : Fin 1) (_ : Fin 1) => (2 : ℝ)) 0 0 = 1 := by
  have h : dotp (fun _ : Fin 1 => (2 : ℝ)) (fun _ => 2) ≠ 0 := by
    unfold dotp
    rw [Fin.sum_univ_one]
    norm_num
  exact ⟨h, (claim_C4_similarity_symmetry 1 1 _).2.2.1 0 h⟩

/-- C1: for an unknown customer id, get_user_recommendations returns the
top n products of a descending sort of the total quantity summed across
all customers, each tagged with the popularity reasoning, and the result
is non-empty exactly when the fitted matrix has at least one product
column (which holds exactly when transactions exist). -/
theorem claim_C1_cold_start {m k : ℕ} (e : Engine m k) (cid : ℤ) (n : ℕ)
    (hcid : ∀ i, e.userIds i ≠ cid) (hn : 0 < n) :
    ∃ l : List (Fin k),
      l.Perm (List.finRange k) ∧
      List.Sorted (fun i j => colSum e j ≤ colSum e i) l ∧
      getUserRecommendations e cid n =
        (l.take n).map (fun j => ⟨e.itemIds j, colSum e j, Reasoning.popularity⟩) ∧
      (getUserRecommendations e cid n ≠ [] ↔ 0 < k) := by
  have hfind : findUser e cid = none := by
    unfold findUser
    rw [List.find?_eq_none]
    intro i _
    simp [hcid i]
  have hg : getUserRecommendations e cid n = coldStartRecs e n := by
    unfold getUserRecommendations
    rw [hfind]
  have hlen : (coldStartRecs e n).length = min n k := by
    unfold coldStartRecs
    rw [List.length_map, List.length_take, argsortDesc_length]
  refine ⟨argsortDesc (colSum e), argsortDesc_perm _, argsortDesc_sorted _,
    by rw [hg]; rfl, ?_⟩
  rw [hg, ← List.length_pos, hlen, lt_min_iff]
  exact ⟨fun h => h.2, fun h => ⟨hn, h⟩⟩

/-- C1 witness: the one-customer engine with customer id 5 queried for the
unknown id 7 with n equal to 1. -/
theorem claim_C1_witness :
    (∀ i, w1Engine.userIds i ≠ 7) ∧ (0 < 1) ∧
    ∃ l : List (Fin 1),
      l.Perm (List.finRange 1) ∧
      List.Sorted (fun i j => colSum w1Engine j ≤ colSum w1Engine i) l ∧
      getUserRecommendations w1Engine 7 1 =
        (l.take 1).map
          (fun j => ⟨w1Engine.itemIds j, colSum w1Engine j, Reasoning.popularity⟩) ∧
      (getUserRecommendations w1Engine 7 1 ≠ [] ↔ 0 < 1) :=
  ⟨by decide, by decide, claim_C1_cold_start w1Engine 7 1 (by decide) (by decide)⟩

/-! ## Evaluation of the example engine exEngine -/

lemma exM00 : exM 0 0 = 3 := by simp [exM]

lemma exM01 : exM 0 1 = 0 := by simp [exM]

lemma exM10 : exM 1 0 = 4 := by simp [exM]

lemma exM11 : exM 1 1 = 3 := by simp [exM]

lemma sqrt_nine : Real.sqrt 9 = 3 := by
  rw [show (9 : ℝ) = 3 * 3 by norm_num]
  exact Real.sqrt_mul_self (by norm_num)

lemma sqrt_twentyfive : Real.sqrt 25 = 5 := by
  rw [show (25 : ℝ) = 5 * 5 by norm_num]
  exact Real.sqrt_mul_self (by norm_num)

lemma exUserSim01 : exEngine.userSim 0 1 = 4 / 5 := by
  show fitUserSim exM 0 1 = 4 / 5
  rw [fitUserSim_eq]
  have hd00 : dotp (exM 0) (exM 0) = 9 := by
    unfold dotp
    rw [Fin.sum_univ_two, exM00, exM01]
    norm_num
  have hd11 : dotp (exM 1) (exM 1) = 25 := by
    unfold dotp
    rw [Fin.sum_univ_two, exM10, exM11]
    norm_num
  have hd01 : dotp (exM 0) (exM 1) = 12 := by
    unfold dotp
    rw [Fin.sum_univ_two, exM00, exM01, exM10, exM11]
    norm_num
  unfold cosineSim
  rw [if_neg (by rw [hd00, hd11]; norm_num)]
  rw [hd00, hd11, hd01, sqrt_nine, sqrt_twentyfive]
  norm_num

lemma exItemSim01 : exEngine.itemSim 0 1 = 4 / 5 := by
  show fitItemSim exM 0 1 = 4 / 5
  rw [fitItemSim_eq]
  have hd00 : dotp (fun u => exM u 0) (fun u => exM u 0) = 25 := by
    unfold dotp
    rw [Fin.sum_univ_two]
    simp only [exM00, exM10]
    norm_num
  have hd11 : dotp (fun u => exM u 1) (fun u => exM u 1) = 9 := by
    unfold dotp
    rw [Fin.sum_univ_two]
    simp only [exM01, exM11]
    norm_num
  have hd01 : dotp (fun u => exM u 0) (fun u => exM u 1) = 12 := by
    unfold dotp
    rw [Fin.sum_univ_two]
    simp only [exM00, exM01, exM10, exM11]
    norm_num
  unfold cosineSim
  rw [if_neg (by rw [hd00, hd11]; norm_num)]
  rw [hd00, hd11, hd01, sqrt_twentyfive, sqrt_nine]
  norm_num

lemma exWeighted1 : weightedItems exEngine 0 1 = 12 / 5 := by
  unfold weightedItems
  rw [Fin.sum_univ_two]
  rw [show exEngine.M 0 1 = (0 : ℝ) from exM01,
    show exEngine.M 1 1 = (3 : ℝ) from exM11, exUserSim01]
  norm_num

lemma exFinal : finalScores exEngine 0 = weightedItems exEngine 0 := rfl

lemma exKey0 : maskedKey exEngine 0 0 = ⊥ :=
  maskedKey_bot_of_purchased exEngine 0 0
    (by rw [show exEngine.M 0 0 = (3 : ℝ) from exM00]; norm_num)

lemma exKey1 : maskedKey exEngine 0 1 = ((12 / 5 : ℝ) : WithBot ℝ) := by
  unfold maskedKey
  rw [if_neg (by rw [show exEngine.M 0 1 = (0 : ℝ) from exM01]; norm_num)]
  rw [show finalScores exEngine 0 1 = 12 / 5 from by rw [exFinal]; exact exWeighted1]

lemma exArgsortMasked : argsortDesc (maskedKey exEngine 0) = [1, 0] :=
  argsortDesc_two _ (by rw [exKey0]; exact bot_le)

lemma exCollab : collabRecs exEngine 0 2 =
    [⟨200, 12 / 5, Reasoning.collaborative⟩] := by
  have hpos : (0 : WithBot ℝ) < maskedKey exEngine 0 1 := by
    rw [exKey1]
    exact_mod_cast (by norm_num : (0 : ℝ) < 12 / 5)
  have hneg : ¬ (0 : WithBot ℝ) < maskedKey exEngine 0 0 := by
    rw [exKey0]
    exact not_lt_bot
  have hfilter : List.filter (fun j => 0 < maskedKey exEngine 0 j)
      [(1 : Fin 2), 0] = [1] := by
    rw [List.filter_cons, List.filter_cons, List.filter_nil]
    simp only [decide_eq_true_eq]
    rw [if_pos hpos, if_neg hneg]
  unfold collabRecs
  rw [exArgsortMasked]
  rw [show List.take 2 [(1 : Fin 2), 0] = [1, 0] from rfl]
  rw [hfilter]
  rw [List.map_cons, List.map_nil]
  rw [show exEngine.itemIds 1 = 200 from by simp [exEngine, fitEngine],
    show finalScores exEngine 0 1 = 12 / 5 from by rw [exFinal]; exact exWeighted1]

lemma exPurchased : purchasedSet exEngine 0 = {0} := by
  have h0 : 0 < exEngine.M 0 0 := by
    rw [show exEngine.M 0 0 = (3 : ℝ) from exM00]
    norm_num
  have h1 : ¬ 0 < exEngine.M 0 1 := by
    rw [show exEngine.M 0 1 = (0 : ℝ) from exM01]
    norm_num
  unfold purchasedSet
  rw [show (Finset.univ : Finset (Fin 2)) = {0, 1} from by decide]
  rw [Finset.filter_insert, if_pos h0, Finset.filter_singleton, if_neg h1]
  rfl

lemma exContent1 : contentScores exEngine 0 1 = 12 / 5 := by
  unfold contentScores
  rw [exPurchased, Finset.sum_singleton]
  rw [exItemSim01, show exEngine.M 0 0 = (3 : ℝ) from exM00]
  norm_num

lemma exCKey0 : contentKey exEngine 0 0 = ⊥ :=
  contentKey_bot_of_purchased exEngine 0 0
    (by rw [show exEngine.M 0 0 = (3 : ℝ) from exM00]; norm_num)

lemma exCKey1 : contentKey exEngine 0 1 = ((12 / 5 : ℝ) : WithBot ℝ) := by
  unfold contentKey
  rw [if_neg (by rw [show exEngine.M 0 1 = (0 : ℝ) from exM01]; norm_num)]
  rw [exContent1]

lemma exArgsortContent : argsortDesc (contentKey exEngine 0) = [1, 0] :=
  argsortDesc_two _ (by rw [exCKey0]; exact bot_le)

lemma exContentRecs : contentBasedRecs exEngine 10 1 =
    [⟨200, 12 / 5, Reasoning.contentBased⟩] := by
  have hpos : (0 : WithBot ℝ) < contentKey exEngine 0 1 := by
    rw [exCKey1]
    exact_mod_cast (by norm_num : (0 : ℝ) < 12 / 5)
  have hfind : findUser exEngine 10 = some 0 := rfl
  have hne : purchasedSet exEngine 0 ≠ ∅ := by
    rw [exPurchased]
    decide
  have hfilter : List.filter (fun j => 0 < contentKey exEngine 0 j)
      [(1 : Fin 2)] = [1] := by
    rw [List.filter_cons, List.filter_nil]
    simp only [decide_eq_true_eq]
    rw [if_pos hpos]
  simp only [contentBasedRecs, hfind]
  rw [if_neg hne]
  rw [exArgsortContent]
  rw [show List.take 1 [(1 : Fin 2), 0] = [1] from rfl]
  rw [hfilter]
  rw [List.map_cons, List.map_nil]
  rw [show exEngine.itemIds 1 = 200 from by simp [exEngine, fitEngine],
    exContent1]

lemma exEval : getUserRecommendations exEngine 10 2 =
    [⟨200, 12 / 5, Reasoning.collaborative⟩,
      ⟨200, 12 / 5, Reasoning.contentBased⟩] := by
  have hfind : findUser exEngine 10 = some 0 := rfl
  simp only [getUserRecommendations, hfind]
  rw [exCollab]
  rw [if_pos (by norm_num : ([(⟨200, 12 / 5,
    Reasoning.collaborative⟩ : RecOut)]).length < 2)]
  rw [show (2 - ([(⟨200, 12 / 5, Reasoning.collaborative⟩ : RecOut)]).length)
    = 1 from rfl]
  rw [exContentRecs]
  rfl

/-! ## Membership decomposition for the recommendation tiers -/

lemma collab_mem_elim {m k : ℕ} (e : Engine m k) (uidx : Fin m) (n : ℕ)
    (r : RecOut) (hr : r ∈ collabRecs e uidx n) :
    ∃ j, r = ⟨e.itemIds j, finalScores e uidx j, Reasoning.collaborative⟩ ∧
      0 < finalScores e uidx j ∧ ¬ 0 < e.M uidx j := by
  unfold collabRecs at hr
  obtain ⟨j, hjmem, hjr⟩ := List.mem_map.mp hr
  obtain ⟨_, hjval⟩ := List.mem_filter.mp hjmem
  have hkey : 0 < maskedKey e uidx j := decide_eq_true_eq.mp hjval
  have hnp : ¬ 0 < e.M uidx j :=
    not_purchased_of_key_pos e uidx _ (maskedKey_bot_of_purchased e uidx)
      j hkey
  have hfs : 0 < finalScores e uidx j := by
    have hco : maskedKey e uidx j = ((finalScores e uidx j : ℝ) : WithBot ℝ) := by
      unfold maskedKey
      rw [if_neg hnp]
    rw [hco] at hkey
    exact_mod_cast hkey
  exact ⟨j, hjr.symm, hfs, hnp⟩

lemma content_mem_elim {m k : ℕ} (e : Engine m k) (cid : ℤ) (uidx : Fin m)
    (n : ℕ) (hfind : findUser e cid = some uidx) (r : RecOut)
    (hr : r ∈ contentBasedRecs e cid n) :
    ∃ j, r = ⟨e.itemIds j, contentScores e uidx j, Reasoning.contentBased⟩ ∧
      0 < contentScores e uidx j ∧ ¬ 0 < e.M uidx j := by
  unfold contentBasedRecs at hr
  simp only [hfind] at hr
  by_cases hp : purchasedSet e uidx = ∅
  · rw [if_pos hp] at hr
    exact absurd hr (List.not_mem_nil r)
  · rw [if_neg hp] at hr
    obtain ⟨j, hjmem, hjr⟩ := List.mem_map.mp hr
    obtain ⟨_, hjval⟩ := List.mem_filter.mp hjmem
    have hkey : 0 < contentKey e uidx j := decide_eq_true_eq.mp hjval
    have hnp : ¬ 0 < e.M uidx j :=
      not_purchased_of_key_pos e uidx _ (contentKey_bot_of_purchased e uidx)
        j hkey
    have hfs : 0 < contentScores e uidx j := by
      have hco : contentKey e uidx j =
          ((contentScores e uidx j : ℝ) : WithBot ℝ) := by
        unfold contentKey
        rw [if_neg hnp]
      rw [hco] at hkey
      exact_mod_cast hkey
    exact ⟨j, hjr.symm, hfs, hnp⟩

lemma getRecs_known_mem {m k : ℕ} (e : Engine m k) (cid : ℤ) (n : ℕ)
    (uidx : Fin m) (hfind : findUser e cid = some uidx) (r : RecOut)
    (hr : r ∈ getUserRecommendations e cid n) :
    r ∈ collabRecs e uidx n ∨
      r ∈ contentBasedRecs e cid (n - (collabRecs e uidx n).length) := by
  unfold getUserRecommendations at hr
  simp only [hfind] at hr
  by_cases hlen : (collabRecs e uidx n).length < n
  · rw [if_pos hlen] at hr
    exact List.mem_append.mp (List.mem_of_mem_take hr)
  · rw [if_neg hlen] at hr
    exact Or.inl (List.mem_of_mem_take hr)

/-- C2: for a known customer, every recommendation returned by
get_user_recommendations — from the collaborative tier or from the
content-based fill — names a product with no strictly positive quantity in
that customer's row: purchased products are masked to -inf in both tiers
and only strictly positive scores are kept. -/
theorem claim_C2_no_repurchase {m k : ℕ} (e : Engine m k) (cid : ℤ) (n : ℕ)
    (uidx : Fin m) (hfind : findUser e cid = some uidx)
    (hinj : Function.Injective e.itemIds) :
    ∀ r ∈ getUserRecommendations e cid n, ∀ j, e.itemIds j = r.product →
      ¬ 0 < e.M uidx j := by
  intro r hr j hj
  rcases getRecs_known_mem e cid n uidx hfind r hr with h | h
  · obtain ⟨j0, hr0, _, hnp⟩ := collab_mem_elim e uidx n r h
    have hjj : j = j0 := hinj (by rw [hj, hr0])
    rwa [hjj]
  · obtain ⟨j0, hr0, _, hnp⟩ := content_mem_elim e cid uidx _ hfind r h
    have hjj : j = j0 := hinj (by rw [hj, hr0])
    rwa [hjj]

/-- C2 witness: in the fitted example engine, customer 10 is known, the
product map is injective, product 200 is returned (twice) and indeed has
quantity 0 in customer 10's row. -/
theorem claim_C2_witness :
    findUser exEngine 10 = some 0 ∧
    Function.Injective exEngine.itemIds ∧
    ((⟨200, 12 / 5, Reasoning.collaborative⟩ : RecOut) ∈
      getUserRecommendations exEngine 10 2) ∧
    exEngine.itemIds 1 = 200 ∧
    ¬ 0 < exEngine.M 0 1 := by
  have hinj : Function.Injective exEngine.itemIds := by
    intro a b hab
    fin_cases a <;> fin_cases b <;> simp_all [exEngine, fitEngine]
  have hmem : (⟨200, 12 / 5, Reasoning.collaborative⟩ : RecOut) ∈
      getUserRecommendations exEngine 10 2 := by
    rw [exEval]
    exact List.mem_cons_self _ _
  exact ⟨rfl, hinj, hmem, by simp [exEngine, fitEngine],
    claim_C2_no_repurchase exEngine 10 2 0 rfl hinj _ hmem 1
      (by simp [exEngine, fitEngine])⟩

/-- C3: for a known customer, the similarity score of each product is the
sum over all customers of similarity times quantity; with a present factor
model and successful projection the final score is 0.6 times the
similarity score plus 0.4 times the factor score, while a failed
projection or an absent model leaves the similarity score alone; and every
collaborative recommendation carries a strictly positive final score. -/
theorem claim_C3_collaborative_scores {m k : ℕ} (e : Engine m k) (cid : ℤ)
    (n : ℕ) (uidx : Fin m) (hfind : findUser e cid = some uidx) :
    (∀ j, weightedItems e uidx j = ∑ u, e.userSim uidx u * e.M u j) ∧
    (∀ transf f, e.mf = some transf → transf (e.M uidx) = some f →
      ∀ j, finalScores e uidx j =
        0.6 * weightedItems e uidx j + 0.4 * f j) ∧
    (∀ transf, e.mf = some transf → transf (e.M uidx) = none →
      finalScores e uidx = weightedItems e uidx) ∧
    (e.mf = none → finalScores e uidx = weightedItems e uidx) ∧
    (∀ r ∈ getUserRecommendations e cid n,
      r.reasoning = Reasoning.collaborative →
      ∃ j, r.product = e.itemIds j ∧ r.score = finalScores e uidx j ∧
        0 < finalScores e uidx j) := by
  refine ⟨fun j => rfl, ?_, ?_, ?_, ?_⟩
  · intro transf f htr hf j
    simp only [finalScores, htr, hf]
  · intro transf htr hf
    simp only [finalScores, htr, hf]
  · intro hmf
    simp only [finalScores, hmf]
  · intro r hr hreason
    rcases getRecs_known_mem e cid n uidx hfind r hr with h | h
    · obtain ⟨j0, hr0, hfs, _⟩ := collab_mem_elim e uidx n r h
      exact ⟨j0, by rw [hr0], by rw [hr0], hfs⟩
    · obtain ⟨j0, hr0, _, _⟩ := content_mem_elim e cid uidx _ hfind r h
      rw [hr0] at hreason
      simp at hreason

/-- C3 witness: the example engine fitted with a present factor model
exercises the 0.6/0.4 combination, and the model-absent example engine
exercises the similarity-only path together with a collaborative
recommendation of strictly positive score. -/
theorem claim_C3_witness :
    findUser exEngineMf 10 = some 0 ∧
    exEngineMf.mf = some exTransf ∧
    exTransf (exEngineMf.M 0) = some exF ∧
    (∀ j, finalScores exEngineMf 0 j =
      0.6 * weightedItems exEngineMf 0 j + 0.4 * exF j) ∧
    findUser exEngine 10 = some 0 ∧
    exEngine.mf = none ∧
    finalScores exEngine 0 = weightedItems exEngine 0 ∧
    ((⟨200, 12 / 5, Reasoning.collaborative⟩ : RecOut) ∈
      getUserRecommendations exEngine 10 2) ∧
    ∃ j, (⟨200, 12 / 5, Reasoning.collaborative⟩ : RecOut).product =
        exEngine.itemIds j ∧
      (⟨200, 12 / 5, Reasoning.collaborative⟩ : RecOut).score =
        finalScores exEngine 0 j ∧
      0 < finalScores exEngine 0 j := by
  have hmem : (⟨200, 12 / 5, Reasoning.collaborative⟩ : RecOut) ∈
      getUserRecommendations exEngine 10 2 := by
    rw [exEval]
    exact List.mem_cons_self _ _
  exact ⟨rfl, rfl, rfl,
    (claim_C3_collaborative_scores exEngineMf 10 2 0 rfl).2.1 exTransf exF
      rfl rfl,
    rfl, rfl,
    (claim_C3_collaborative_scores exEngine 10 2 0 rfl).2.2.2.1 rfl,
    hmem,
    (claim_C3_collaborative_scores exEngine 10 2 0 rfl).2.2.2.2 _ hmem rfl⟩

/-- C10: in the fitted example engine, customer 10 is known, the
collaborative tier yields fewer than n = 2 recommendations, and the
returned list contains product 200 twice — once from the collaborative
tier and once from the content-based fill: deduplication happens only
against purchased products, not across reasoning tiers. -/
theorem claim_C10_duplicate_across_tiers :
    findUser exEngine 10 = some 0 ∧
    (collabRecs exEngine 0 2).length < 2 ∧
    (getUserRecommendations exEngine 10 2).map RecOut.product =
      [200, 200] ∧
    (getUserRecommendations exEngine 10 2).map RecOut.reasoning =
      [Reasoning.collaborative, Reasoning.contentBased] := by
  refine ⟨rfl, ?_, ?_, ?_⟩
  · rw [exCollab]
    norm_num
  · rw [exEval]
    rfl
  · rw [exEval]
    rfl

/-- C8 (amended): get_similar_users and get_similar_products return the
empty list for an unknown id; for a known id they return positions 1
through n of the descending argsort of the similarity row, which excludes
the queried entity itself whenever its self-similarity strictly exceeds
every other score in the row — the code drops only the first entry of the
descending order, so under ties at the maximum the queried entity itself
can be returned (see the counterexample). -/
theorem claim_C8_similar_neighbors {m k : ℕ} (e : Engine m k) (cid : ℤ)
    (p : ℕ) (n : ℕ) (uidx : Fin m) (pidx : Fin k)
    (hfu : findUser e cid = some uidx)
    (hmaxu : ∀ j, j ≠ uidx → e.userSim uidx j < e.userSim uidx uidx)
    (hfp : findItem e p = some pidx)
    (hmaxp : ∀ q, q ≠ pidx → e.itemSim pidx q < e.itemSim pidx pidx) :
    (∀ cid2, findUser e cid2 = none → getSimilarUsers e cid2 n = []) ∧
    (∀ p2, findItem e p2 = none → getSimilarProducts e p2 n = []) ∧
    (∃ idxs : List (Fin m),
      getSimilarUsers e cid n =
        idxs.map (fun j => ⟨e.userIds j, e.userSim uidx j⟩) ∧
      uidx ∉ idxs ∧ idxs.Nodup ∧
      List.Sorted (fun i j => e.userSim uidx j ≤ e.userSim uidx i) idxs ∧
      idxs.length = min n (m - 1) ∧
      (∀ j, j ∉ idxs → j ≠ uidx →
        ∀ i ∈ idxs, e.userSim uidx j ≤ e.userSim uidx i)) ∧
    (∃ idxs : List (Fin k),
      getSimilarProducts e p n =
        idxs.map (fun j => ⟨e.itemIds j, e.itemSim pidx j⟩) ∧
      pidx ∉ idxs ∧ idxs.Nodup ∧
      List.Sorted (fun i j => e.itemSim pidx j ≤ e.itemSim pidx i) idxs ∧
      idxs.length = min n (k - 1) ∧
      (∀ q, q ∉ idxs → q ≠ pidx →
        ∀ i ∈ idxs, e.itemSim pidx q ≤ e.itemSim pidx i)) := by
  obtain ⟨hu1, hu2, hu3, hu4, hu5⟩ :=
    nearestNeighbors_spec (e.userSim uidx) uidx n hmaxu
  obtain ⟨hp1, hp2, hp3, hp4, hp5⟩ :=
    nearestNeighbors_spec (e.itemSim pidx) pidx n hmaxp
  refine ⟨?_, ?_, ?_, ?_⟩
  · intro cid2 h2
    unfold getSimilarUsers
    simp only [h2]
  · intro p2 h2
    unfold getSimilarProducts
    simp only [h2]
  · refine ⟨((argsortDesc (e.userSim uidx)).drop 1).take n, ?_, hu1, hu4,
      hu2, hu3, hu5⟩
    unfold getSimilarUsers
    simp only [hfu]
  · refine ⟨((argsortDesc (e.itemSim pidx)).drop 1).take n, ?_, hp1, hp4,
      hp2, hp3, hp5⟩
    unfold getSimilarProducts
    simp only [hfp]

/-- C8 counterexample: fitting a matrix with two identical customer rows
(ids 7 and 8) makes both user-similarity scores of customer 7 equal to 1;
np.argsort([1,1])[::-1] puts the other customer first, [1:2] drops it, and
get_similar_users(7, 1) returns customer 7 itself — the claim that the
queried entity is always excluded fails under ties at the maximum. -/
theorem claim_C8_counterexample :
    (getSimilarUsers cexEngine 7 1).map SimUser.customerId = [7] := by
  have hsim : ∀ a b : Fin 2, cexEngine.userSim a b = 1 := by
    intro a b
    show fitUserSim cexM a b = 1
    rw [fitUserSim_eq]
    have hd : dotp (fun _ : Fin 1 => (1 : ℝ)) (fun _ => 1) ≠ 0 := by
      unfold dotp
      rw [Fin.sum_univ_one]
      norm_num
    exact cosineSim_self _ hd
  have hsort : argsortDesc (cexEngine.userSim 0) = [1, 0] :=
    argsortDesc_two _ (by rw [hsim 0 0, hsim 0 1])
  have hfind : findUser cexEngine 7 = some 0 := rfl
  unfold getSimilarUsers
  simp only [hfind]
  rw [hsort]
  rw [show (([(1 : Fin 2), 0].drop 1).take 1) = [0] from rfl]
  rw [List.map_cons, List.map_nil, List.map_cons, List.map_nil]
  rw [show cexEngine.userIds 0 = 7 from by simp [cexEngine, fitEngine]]

/-- C8 witness: a small engine whose similarity rows have strict maxima on
the diagonal; the unknown-id clause is exercised at id 99. -/
theorem claim_C8_witness :
    findUser w8Engine 10 = some 0 ∧
    (∀ j : Fin 2, j ≠ 0 → w8Engine.userSim 0 j < w8Engine.userSim 0 0) ∧
    findItem w8Engine 100 = some 0 ∧
    (∀ q : Fin 2, q ≠ 0 → w8Engine.itemSim 0 q < w8Engine.itemSim 0 0) ∧
    findUser w8Engine 99 = none ∧
    getSimilarUsers w8Engine 99 1 = [] := by
  have hmaxu : ∀ j : Fin 2, j ≠ 0 →
      w8Engine.userSim 0 j < w8Engine.userSim 0 0 := by
    intro j hj
    fin_cases j
    · exact absurd rfl hj
    · show w8Engine.userSim 0 1 < w8Engine.userSim 0 0
      rw [show w8Engine.userSim 0 1 = (1 / 2 : ℝ) from by simp [w8Engine],
        show w8Engine.userSim 0 0 = (1 : ℝ) from by simp [w8Engine]]
      norm_num
  have hmaxp : ∀ q : Fin 2, q ≠ 0 →
      w8Engine.itemSim 0 q < w8Engine.itemSim 0 0 := by
    intro q hq
    fin_cases q
    · exact absurd rfl hq
    · show w8Engine.itemSim 0 1 < w8Engine.itemSim 0 0
      rw [show w8Engine.itemSim 0 1 = (1 / 2 : ℝ) from by simp [w8Engine],
        show w8Engine.itemSim 0 0 = (1 : ℝ) from by simp [w8Engine]]
      norm_num
  exact ⟨rfl, hmaxu, rfl, hmaxp, rfl,
    (claim_C8_similar_neighbors w8Engine 10 100 1 0 0 rfl hmaxu rfl
      hmaxp).1 99 rfl⟩

end SmartCart
